import Mathlib

/-!
Shallow embedding of the content-scraping subsystem of the
`english-classplanner-mvp` repository in Lean 4, together with proofs of
the behavioural properties stated in its specification.

The embedded code comes from:
* `scraper/scrapers/BaseScraper.js` (formatResult, run),
* `scraper/scrapers/BritishCouncilScraper.js` (normalizeLevel,
  getReadingArticles, scrapeArticle, scrape),
* `scraper/scrapers/BreakingNewsScraper.js` (getLatestArticles,
  scrapeArticle, scrape),
* `scraper/index.js` (runAll),
* `src/lib/content-loader.ts` (normalizeToCEFR, mapBNELevelToCEFR,
  getValidContent).

Effectful inputs (fetched documents, the clock, adapter outcomes) are made
explicit parameters; JavaScript strings are modelled as Lean `String`,
JavaScript array methods as list operations, and JavaScript falsiness of
strings / optional values is modelled explicitly.
-/

/-! ## JavaScript string primitives -/

/-- JavaScript `a || b` on strings: the empty string is falsy. -/
def strOr (a b : String) : String := if a = "" then b else a

/-- ASCII lower-casing, modelling `s.toLowerCase()` on the ASCII strings the
scraper manipulates. -/
def jsToLower (s : String) : String := String.mk (s.toList.map Char.toLower)

/-- ASCII upper-casing, modelling `s.toUpperCase()`. -/
def jsToUpper (s : String) : String := String.mk (s.toList.map Char.toUpper)

/-- Whitespace characters removed by `s.trim()`. -/
def isWsp (c : Char) : Bool := c == ' ' || c == '\t' || c == '\n' || c == '\r'

/-- JavaScript `s.trim()`. -/
def jsTrim (s : String) : String :=
  String.mk (((s.toList.dropWhile isWsp).reverse.dropWhile isWsp).reverse)

/-- JavaScript `xs.join(sep)`. -/
def joinSep (sep : String) : List String → String
  | [] => ""
  | [x] => x
  | x :: xs => x ++ sep ++ joinSep sep xs

/-- Prefix test on character lists. -/
def isPrefixOfList : List Char → List Char → Bool
  | [], _ => true
  | _ :: _, [] => false
  | a :: as, b :: bs => a == b && isPrefixOfList as bs

/-- Substring occurrence test on character lists (`needle` occurs in `hay`). -/
def listContainsSub (needle : List Char) : List Char → Bool
  | [] => isPrefixOfList needle []
  | c :: cs => isPrefixOfList needle (c :: cs) || listContainsSub needle cs

/-- JavaScript `s.includes(sub)`. -/
def jsIncludes (s sub : String) : Bool := listContainsSub sub.toList s.toList

/-- JavaScript `s.startsWith(p)`. -/
def jsStartsWith (s p : String) : Bool := isPrefixOfList p.toList s.toList

/-- JavaScript `s.endsWith(p)`. -/
def jsEndsWith (s p : String) : Bool :=
  isPrefixOfList p.toList.reverse s.toList.reverse

/-- JavaScript `s.substring(0, n)` (truncation to at most `n` characters). -/
def jsSubstring (s : String) (n : Nat) : String := String.mk (s.toList.take n)

/-- JavaScript `s.split(c)[0]`: the characters before the first occurrence
of `c` (the whole string when `c` does not occur). -/
def splitFirst (s : String) (c : Char) : String :=
  String.mk (s.toList.takeWhile (fun d => d ≠ c))

/-- Truthiness of an optional boolean JavaScript field: `undefined` and
`false` are falsy. -/
def jsBool (o : Option Bool) : Bool := o.getD false

/-! ## Level normalization (BritishCouncilScraper.normalizeLevel) -/

/-- One scanning step of the JavaScript regular expression
`/([abc][12])/i`: the first position whose character is `a`, `b` or `c`
(either case) followed by `1` or `2`, returning the captured pair. -/
def findCefr : List Char → Option (Char × Char)
  | a :: b :: rest =>
      if (a == 'a' || a == 'b' || a == 'c' || a == 'A' || a == 'B' || a == 'C') &&
         (b == '1' || b == '2') then
        some (a, b)
      else
        findCefr (b :: rest)
  | _ => none

/-- The descriptive-word level map of `normalizeLevel`, in the source's
insertion order. -/
def levelMap : List (String × String) :=
  [("beginner", "A1"), ("elementary", "A2"), ("pre-intermediate", "B1"),
   ("intermediate", "B1"), ("upper-intermediate", "B2"),
   ("upper intermediate", "B2"), ("advanced", "C1")]

/-- Embedding of `BritishCouncilScraper.normalizeLevel`: maps a raw level text to a CEFR
code when a CEFR pattern or a known descriptive word is found, otherwise
passes the input through unchanged (empty input becomes `"Unknown"`). -/
def normalizeLevel (levelText : String) : String :=
  if levelText = "" then "Unknown"
  else
    let lower := jsTrim (jsToLower levelText)
    match findCefr lower.toList with
    | some (a, b) => String.mk [a.toUpper, b.toUpper]
    | none =>
        match levelMap.find? (fun p => jsIncludes lower p.1) with
        | some p => p.2
        | none => strOr levelText "Unknown"

/-! ## Content Loader level normalization (content-loader.ts) -/

/-- Embedding of `mapBNELevelToCEFR`: strips non-digits, parses the remaining digits and
maps Breaking News English numeric levels 0–6 to CEFR codes; input with no
digits is returned unchanged. -/
def mapBNELevelToCEFR (level : String) : String :=
  let digits := level.toList.filter Char.isDigit
  match digits with
  | [] => level
  | _ =>
      let levelNum := digits.foldl (fun acc c => acc * 10 + (c.toNat - '0'.toNat)) 0
      if levelNum ≤ 1 then "A1"
      else if levelNum = 2 then "A2"
      else if levelNum = 3 then "B1"
      else if levelNum = 4 then "B1"
      else if levelNum = 5 then "B2"
      else "C1"

/-- The JavaScript test `/^[ABC][12]$/i.test(level)`. -/
def isCefrExact (level : String) : Bool :=
  match level.toList with
  | [a, b] =>
      (a == 'A' || a == 'B' || a == 'C' || a == 'a' || a == 'b' || a == 'c') &&
      (b == '1' || b == '2')
  | _ => false

/-- Embedding of `normalizeToCEFR` from the Content Loader. -/
def normalizeToCEFR (level : String) : String :=
  if level = "" then "Unknown"
  else if isCefrExact level then jsToUpper level
  else if jsIncludes (jsToLower level) "level" then mapBNELevelToCEFR level
  else level

/-! ## Data model (ScrapedItem, exercises) -/

/-- One exercise record.  The JavaScript objects are heterogeneous
(vocabulary pair / comprehension question / task record), modelled as one
structure with an explicit `type` tag and optional per-kind fields. -/
structure Exercise where
  type : String
  word : Option String := none
  definition : Option String := none
  question : Option String := none
  options : Option (List String) := none
  instruction : Option String := none
  description : Option String := none
deriving Repr, DecidableEq

/-- An entry of the `availableLevels` list of a Breaking News item. -/
structure LevelLink where
  level : String
  url : String
deriving Repr, DecidableEq

/-- One extracted teaching artifact, as actually constructed by
`BaseScraper.formatResult` plus the post-construction field assignments
done in the adapters' `scrape()` loops.  Optional fields model JavaScript
properties that may be absent (`none` = absent). -/
structure ScrapedItem where
  source : String
  level : String
  title : String
  body : String
  exercises : List Exercise
  scrapedAt : String
  url : Option String := none
  availableLevels : Option (List LevelLink) := none
  description : Option String := none
  blocked : Option Bool := none
deriving Repr, DecidableEq

/-- The argument object the adapters pass to `formatResult`.  The `blocked`
field mirrors the `blocked: true` property that
`BritishCouncilScraper.scrapeArticle` includes in its argument. -/
structure FormatData where
  title : String
  level : String
  body : String
  exercises : List Exercise
  blocked : Bool := false

/-- Embedding of `BaseScraper.formatResult`: builds the standard item shape.  Note that
the source function copies only `level`, `title`, `body` and `exercises`
from its argument; in particular the `blocked` property of the argument is
not copied into the result. -/
def formatResult (name now : String) (d : FormatData) : ScrapedItem :=
  { source := name
    level := strOr d.level "Unknown"
    title := strOr d.title "Untitled"
    body := strOr d.body ""
    exercises := d.exercises
    scrapedAt := now }

/-! ## BritishCouncilScraper discovery (getReadingArticles) -/

def bcBaseUrl : String := "https://learnenglish.britishcouncil.org"

/-- A link element as seen by the discovery selectors: its `href` attribute
(`""` models a missing attribute) and its raw text content. -/
structure LinkEl where
  href : String
  text : String
deriving Repr, DecidableEq

/-- The result of fetching one level listing page: for each of the five
discovery selectors, in order, the link elements it matches. -/
structure BCListDoc where
  selectorLinks : List (List LinkEl)
deriving Repr

/-- An item reference produced by British Council discovery. -/
structure BCArticleInfo where
  url : String
  title : String
  level : String
deriving Repr, DecidableEq

/-- The text filter applied to a candidate link (input already trimmed). -/
def bcLinkTextOk (text : String) : Bool :=
  decide (text.length > 5) && decide (text.length < 150) &&
  !(jsIncludes (jsToLower text) "next") &&
  !(jsIncludes (jsToLower text) "previous") &&
  !(jsIncludes (jsToLower text) "home") &&
  !(jsIncludes (jsToLower text) "back")

/-- Resolution of a link `href` to an absolute URL. -/
def bcResolveUrl (href : String) : String :=
  if jsStartsWith href "http" then href
  else if jsStartsWith href "/" then bcBaseUrl ++ href
  else bcBaseUrl ++ "/" ++ href

/-- The URL filter applied to a resolved candidate URL. -/
def bcUrlOk (fullUrl : String) : Bool :=
  jsIncludes fullUrl "/reading/" &&
  !(jsEndsWith fullUrl "/reading") &&
  !(jsEndsWith fullUrl "-reading")

/-- The `$(selector).each(...)` loop body of `getReadingArticles`: walks the
links of one selector, stopping once `limit` articles are collected, and
appends each link that passes the text, URL and duplicate filters. -/
def bcProcessLinks (limit : Nat) (level : String) :
    List LinkEl → List BCArticleInfo → List BCArticleInfo
  | [], articles => articles
  | l :: rest, articles =>
      if articles.length ≥ limit then articles
      else
        let text := jsTrim l.text
        let articles' :=
          if l.href != "" && text != "" && bcLinkTextOk text then
            let fullUrl := bcResolveUrl l.href
            if (articles.find? (fun a => a.url == fullUrl)).isNone && bcUrlOk fullUrl then
              articles ++ [⟨fullUrl, jsSubstring text 100, level⟩]
            else articles
          else articles
        bcProcessLinks limit level rest articles'

/-- The selector loop of one level page: selectors are tried in order, and
the loop stops as soon as the accumulated article list is non-empty. -/
def bcProcessSelectors (limit : Nat) (level : String) :
    List (List LinkEl) → List BCArticleInfo → List BCArticleInfo
  | [], articles => articles
  | links :: rest, articles =>
      let articles' := bcProcessLinks limit level links articles
      if articles'.length > 0 then articles'
      else bcProcessSelectors limit level rest articles'

/-- The level loop of `getReadingArticles`.  Each entry pairs a level name
with the outcome of fetching its listing page (`none` models a fetch that
threw and was caught by the per-level `try/catch`). -/
def bcProcessLevels (limit : Nat) :
    List (String × Option BCListDoc) → List BCArticleInfo → List BCArticleInfo
  | [], articles => articles
  | p :: rest, articles =>
      if articles.length ≥ limit then articles
      else
        let articles' :=
          match p.2 with
          | none => articles
          | some d => bcProcessSelectors limit p.1 d.selectorLinks articles
        bcProcessLevels limit rest articles'

/-- The hard-coded fallback references used when discovery finds nothing. -/
def bcFallbackArticles : List BCArticleInfo :=
  [⟨bcBaseUrl ++ "/skills/reading/a2-reading/a-message-to-a-new-colleague",
    "A message to a new colleague", "A2"⟩,
   ⟨bcBaseUrl ++ "/skills/reading/b1-reading/an-email-from-a-friend",
    "An email from a friend", "B1"⟩,
   ⟨bcBaseUrl ++ "/skills/reading/a1-reading/business-cards",
    "Business cards", "A1"⟩]

/-- Embedding of `BritishCouncilScraper.getReadingArticles`. -/
def getReadingArticles (limit : Nat)
    (levelDocs : List (String × Option BCListDoc)) : List BCArticleInfo :=
  let articles := bcProcessLevels limit levelDocs []
  let articles := if articles.length = 0 then bcFallbackArticles else articles
  articles.take limit

/-! ## BritishCouncilScraper article extraction (scrapeArticle) -/

/-- A question-like element matched by one of the quiz selectors: its raw
text and the raw texts of its option elements, in document order. -/
structure QuestionEl where
  text : String
  optionTexts : List String
deriving Repr

/-- A task container element: the raw text of its first heading
(`h2, h3, .task-title`, `""` when absent) and of its first paragraph. -/
structure TaskEl where
  headingText : String
  paraText : String
deriving Repr

/-- The parts of a fetched British Council article page that
`scrapeArticle` queries: title candidates, the paragraph texts matched by
each of the eight content selectors, the paragraph texts of the first
`main`-like container (`none` when no such container exists), the
question elements matched by each of the six quiz selectors, and the task
container elements. -/
structure BCDoc where
  h1First : String
  pageTitle : String
  titleTag : String
  contentSel : List (List String)
  mainParas : Option (List String)
  questionSel : List (List QuestionEl)
  taskEls : List TaskEl
deriving Repr

/-- The explanatory body used for a detected anti-bot block. -/
def blockedMsg : String :=
  "[BLOCKED] British Council has anti-bot protection. Consider using their official API or manual access."

/-- The title fallback chain of `BritishCouncilScraper.scrapeArticle`. -/
def bcTitle (info : BCArticleInfo) (doc : BCDoc) : String :=
  strOr (jsTrim doc.h1First)
    (strOr (jsTrim doc.pageTitle)
      (strOr (jsTrim (splitFirst doc.titleTag '|'))
        (strOr info.title "Untitled Reading")))

/-- The blocked-title heuristic. -/
def bcIsBlockedTitle (title : String) : Bool :=
  jsIncludes (jsToLower title) "access denied" ||
  jsIncludes (jsToLower title) "blocked" ||
  jsIncludes (jsToLower title) "forbidden"

/-- Level determination: the reference's provisional level, else a CEFR
pattern found in the URL, else `"Unknown"`. -/
def bcLevel (info : BCArticleInfo) : String :=
  let level := strOr info.level "Unknown"
  if level = "Unknown" then
    match findCefr info.url.toList with
    | some (a, b) => String.mk [a.toUpper, b.toUpper]
    | none => level
  else level

/-- The per-paragraph filter of the British Council body extraction
(applied to trimmed paragraph text). -/
def bcParaFilter (text : String) : Bool :=
  decide (text.length > 30) &&
  !(jsIncludes text "Log in") &&
  !(jsIncludes text "Sign up") &&
  !(jsIncludes text "©")

/-- The content-selector loop: the first selector that matches at least one
element whose filtered paragraph texts are non-empty supplies the body. -/
def bcBodyFromSelectors : List (List String) → String
  | [] => ""
  | els :: rest =>
      if els.length > 0 then
        let texts := (els.map jsTrim).filter bcParaFilter
        if texts.length > 0 then joinSep "\n\n" texts
        else bcBodyFromSelectors rest
      else bcBodyFromSelectors rest

/-- Body extraction including the main-container fallback used when the
selector-derived body is shorter than 100 characters. -/
def bcBody (doc : BCDoc) : String :=
  let body := bcBodyFromSelectors doc.contentSel
  if body.length < 100 then
    match doc.mainParas with
    | some ps =>
        joinSep "\n\n" ((ps.map jsTrim).filter (fun t => decide (t.length > 30)))
    | none => body
  else body

/-- The comprehension exercises built from one quiz selector's elements. -/
def bcQuestionExercises (els : List QuestionEl) : List Exercise :=
  els.filterMap (fun el =>
    let questionText := jsTrim el.text
    if decide (questionText.length > 10) && decide (questionText.length < 500) then
      let options :=
        ((el.optionTexts.map jsTrim).filter
          (fun t => t != "" && decide (t.length < 200))).take 4
      some { type := "comprehension"
             question := some (jsSubstring (jsTrim (splitFirst questionText '\n')) 200)
             options := some options }
    else none)

/-- The quiz-selector loop: selectors are tried in order until one yields
at least one exercise. -/
def bcQuestionsFromSelectors : List (List QuestionEl) → List Exercise
  | [] => []
  | els :: rest =>
      let ex := bcQuestionExercises els
      if ex.length > 0 then ex else bcQuestionsFromSelectors rest

/-- The task-record fallback used when no quiz exercises were found. -/
def bcTaskExercises (els : List TaskEl) : List Exercise :=
  els.filterMap (fun el =>
    let instruction := jsTrim el.headingText
    let content := jsTrim el.paraText
    if instruction != "" || content != "" then
      some { type := "task"
             instruction := some (strOr instruction "Reading Task")
             description := some (jsSubstring content 300) }
    else none)

/-- Exercise extraction of `BritishCouncilScraper.scrapeArticle`. -/
def bcExercises (doc : BCDoc) : List Exercise :=
  let exercises := bcQuestionsFromSelectors doc.questionSel
  if exercises.length = 0 then bcTaskExercises doc.taskEls else exercises

/-- Embedding of `BritishCouncilScraper.scrapeArticle` on an already-fetched page. -/
def bcScrapeArticle (now : String) (info : BCArticleInfo) (doc : BCDoc) :
    ScrapedItem :=
  let title := bcTitle info doc
  if bcIsBlockedTitle title then
    formatResult "BritishCouncil" now
      { title := strOr info.title "Access Blocked"
        level := strOr info.level "Unknown"
        body := blockedMsg
        exercises := []
        blocked := true }
  else
    formatResult "BritishCouncil" now
      { title := jsTrim title
        level := bcLevel info
        body := jsSubstring (bcBody doc) 5000
        exercises := (bcExercises doc).take 10 }

/-- The effectful environment of one British Council run: the outcome of
fetching each level listing page, and the outcome of fetching each article
URL (`Except.error` models a fetch failure caught by the per-item guard). -/
structure BCEnv where
  levelDocs : List (String × Option BCListDoc)
  articleDoc : String → Except String BCDoc

/-- Embedding of `BritishCouncilScraper.scrape`: discovery with limit 3, then per-item
extraction, skipping items whose fetch fails and stamping the reference
URL onto each successful item. -/
def bcScrape (now : String) (env : BCEnv) : List ScrapedItem :=
  let articles := getReadingArticles 3 env.levelDocs
  articles.filterMap (fun article =>
    match env.articleDoc article.url with
    | .error _ => none
    | .ok doc => some { bcScrapeArticle now article doc with url := some article.url })

/-! ## BreakingNewsScraper -/

def bnBaseUrl : String := "https://breakingnewsenglish.com"

/-- One `.lesson-excerpt` element of the Breaking News homepage as queried
by `getLatestArticles`: the title link's `href` (`""` models a missing
attribute) and raw text, the `(href, text)` pairs of the `.lesson-levels`
links, and the raw texts of the `.content` and `.smallfont` elements. -/
structure BNExcerpt where
  href : String
  titleText : String
  levelEls : List (String × String)
  contentText : String
  smallfontText : String
deriving Repr

/-- An item reference produced by Breaking News discovery. -/
structure BNArticleInfo where
  url : String
  title : String
  description : String
  difficulty : String
  levels : List LevelLink
deriving Repr, DecidableEq

/-- URL resolution against the Breaking News base URL. -/
def bnResolve (href : String) : String :=
  if jsStartsWith href "http" then href else bnBaseUrl ++ "/" ++ href

/-- The available-levels list collected from one excerpt. -/
def bnLevelLinks (els : List (String × String)) : List LevelLink :=
  els.filterMap (fun p =>
    let levelText := jsTrim p.2
    if p.1 != "" && levelText != "" then some ⟨levelText, bnResolve p.1⟩
    else none)

/-- The `.lesson-excerpt` loop of `getLatestArticles`: stops once `limit`
references are collected; pushes every excerpt that has both a link target
and a non-empty title, with no deduplication. -/
def bnCollect (limit : Nat) :
    List BNExcerpt → List BNArticleInfo → List BNArticleInfo
  | [], acc => acc
  | e :: rest, acc =>
      if acc.length ≥ limit then acc
      else
        let title := jsTrim e.titleText
        let acc' :=
          if e.href != "" && title != "" then
            acc ++ [⟨bnResolve e.href, title, jsTrim e.contentText,
                     jsTrim e.smallfontText, bnLevelLinks e.levelEls⟩]
          else acc
        bnCollect limit rest acc'

/-- Embedding of `BreakingNewsScraper.getLatestArticles` on an already-fetched
homepage. -/
def getLatestArticles (limit : Nat) (excerpts : List BNExcerpt) :
    List BNArticleInfo :=
  bnCollect limit excerpts []

/-- The parts of a fetched Breaking News article page that `scrapeArticle`
queries: title candidates, all paragraph texts, all `div` texts, all
`strong`/`b` texts, and the cell texts of every table row. -/
structure BNDoc where
  h1First : String
  titleTag : String
  pTexts : List String
  divTexts : List String
  boldTexts : List String
  tableRows : List (List String)
deriving Repr

/-- The URL `scrapeArticle` actually fetches: the first available level's
URL when present, otherwise the reference URL. -/
def bnArticleUrl (info : BNArticleInfo) : String :=
  match info.levels with
  | l :: _ => l.url
  | [] => info.url

/-- The title fallback chain of `BreakingNewsScraper.scrapeArticle`. -/
def bnTitle (info : BNArticleInfo) (doc : BNDoc) : String :=
  strOr info.title
    (strOr (jsTrim doc.h1First)
      (strOr (jsTrim (splitFirst doc.titleTag '-')) "Untitled Article"))

/-- The regular-expression match `-(\d)\.html` anchored at the end of the
URL in `scrapeArticle`: the digit captured when the URL ends in
`-<digit>.html`. -/
def bnUrlLevelDigit (url : String) : Option Char :=
  match url.toList.reverse with
  | 'l' :: 'm' :: 't' :: 'h' :: '.' :: d :: '-' :: _ =>
      if d.isDigit then some d else none
  | _ => none

/-- Level determination of `BreakingNewsScraper.scrapeArticle`. -/
def bnLevel (info : BNArticleInfo) (url : String) : String :=
  match bnUrlLevelDigit url with
  | some d => "Level " ++ String.mk [d]
  | none =>
      match info.levels with
      | l :: _ => l.level
      | [] => "Unknown"

/-- The per-paragraph filter of the Breaking News body extraction
(applied to trimmed paragraph text). -/
def bnParaFilter (text : String) : Bool :=
  decide (text.length > 80) &&
  !(jsIncludes text "©") &&
  !(jsIncludes text "Click") &&
  !(jsIncludes text "Subscribe") &&
  !(jsIncludes text "Help this site") &&
  !(jsIncludes (jsToLower text) "copyright")

/-- The paragraph aggregation of `BreakingNewsScraper.scrapeArticle`. -/
def bnParagraphs (pTexts : List String) : List String :=
  (pTexts.map jsTrim).filter bnParaFilter

/-- The `div` fallback scan used when the aggregated body is shorter than
200 characters: keeps the longest qualifying `div` text seen so far. -/
def bnDivFallback (divTexts : List String) (body : String) : String :=
  divTexts.foldl (fun b t =>
    let text := jsTrim t
    if decide (text.length > 300) && decide (text.length < 3000) &&
       !(jsIncludes text "©") then
      if text.length > b.length then text else b
    else b) body

/-- Body extraction of `BreakingNewsScraper.scrapeArticle`. -/
def bnBody (doc : BNDoc) : String :=
  let body := joinSep "\n\n" (bnParagraphs doc.pTexts)
  if body.length < 200 then bnDivFallback doc.divTexts body else body

/-- The non-vocabulary words ignored by the bold-text vocabulary scan. -/
def ignoreWords : List String :=
  ["level", "january", "february", "march", "april", "may", "june",
   "july", "august", "september", "october", "november", "december",
   "sources", "news", "rssfeed", "rss", "feed", "http", "www", "com",
   "org", "net", "esl", "efl", "pdf", "mp3", "quiz", "quizzes",
   "easier", "harder", "buy", "click", "subscribe", "copyright",
   "help", "home", "back", "next", "previous", "facebook", "twitter",
   "linkedin", "email", "share", "print", "download"]

/-- The word filter of the bold-text vocabulary scan (input already
trimmed). -/
def bnWordOk (word : String) : Bool :=
  decide (word.length > 2) && decide (word.length < 25) &&
  !(match word.toList with | c :: _ => c.isDigit | [] => false) &&
  !(jsStartsWith word "$") &&
  !(jsIncludes word ".com") &&
  !(jsIncludes word ".org") &&
  !(jsIncludes word "$") &&
  !(ignoreWords.any (fun iw => jsIncludes (jsToLower word) iw)) &&
  decide (word.toList.count ' ' + 1 ≤ 2)

/-- The bold-text vocabulary scan (`$('strong, b').each(...)`), with its
case-insensitive deduplication. -/
def bnBoldVocab (boldTexts : List String) : List (String × String) :=
  boldTexts.foldl (fun vocab t =>
    let word := jsTrim t
    let lowerWord := jsToLower word
    if bnWordOk word then
      if (vocab.find? (fun v => jsToLower v.1 == lowerWord)).isNone then
        vocab ++ [(word, "")]
      else vocab
    else vocab) []

/-- The vocabulary-table scan (`$('table tr').each(...)`), appended after
the bold-text scan with no deduplication. -/
def bnTableVocab (tableRows : List (List String))
    (vocab : List (String × String)) : List (String × String) :=
  tableRows.foldl (fun v cells =>
    match cells with
    | c0 :: c1 :: _ =>
        let word := jsTrim c0
        let defn := jsTrim c1
        if word != "" && defn != "" && decide (word.length < 30) then
          v ++ [(word, defn)]
        else v
    | _ => v) vocab

/-- Embedding of `BreakingNewsScraper.scrapeArticle` on an already-fetched page. -/
def bnScrapeArticle (now : String) (info : BNArticleInfo) (doc : BNDoc) :
    ScrapedItem :=
  let url := bnArticleUrl info
  let title := bnTitle info doc
  let level := bnLevel info url
  let vocabulary := bnTableVocab doc.tableRows (bnBoldVocab doc.boldTexts)
  formatResult "BreakingNewsEnglish" now
    { title := jsTrim title
      level := level
      body := jsSubstring (bnBody doc) 5000
      exercises := (vocabulary.take 20).map (fun v =>
        { type := "vocabulary", word := some v.1, definition := some v.2 }) }

/-- The effectful environment of one Breaking News run: the outcome of
fetching the homepage and of fetching each article URL. -/
structure BNEnv where
  homeDoc : Except String (List BNExcerpt)
  articleDoc : String → Except String BNDoc

/-- Embedding of `BreakingNewsScraper.scrape`: a homepage fetch failure propagates (it
happens outside any guard); each article is extracted under the per-item
guard, and successful items are stamped with the reference URL, the
available levels and the description. -/
def bnScrape (now : String) (env : BNEnv) : Except String (List ScrapedItem) :=
  match env.homeDoc with
  | .error e => .error e
  | .ok excerpts =>
      let articles := getLatestArticles 3 excerpts
      .ok (articles.filterMap (fun article =>
        match env.articleDoc (bnArticleUrl article) with
        | .error _ => none
        | .ok doc =>
            some { bnScrapeArticle now article doc with
                   url := some article.url
                   availableLevels := some article.levels
                   description := some article.description }))

/-! ## BaseScraper.run -/

/-- Embedding of `BaseScraper.run`, with the effects made explicit: `initOutcome` is
`some msg` when `initBrowser` throws with message `msg`, and
`scrapeOutcome` is the outcome of `this.scrape()`.  `closeBrowser` (a
guarded no-op when no browser exists) is modelled as an infallible state
change.  The first component is what `run` produces for its caller (an
`Except.error` would model a propagated exception; `Except.ok none`
models the `return null` of the catch branch); the second component is
whether the browser is still open afterwards. -/
def runScraper (initOutcome : Option String)
    (scrapeOutcome : Except String (List ScrapedItem)) :
    Except String (Option (List ScrapedItem)) × Bool :=
  match initOutcome with
  | some _ => (Except.ok none, false)
  | none =>
      match scrapeOutcome with
      | .error _ => (Except.ok none, false)
      | .ok results => (Except.ok (some results), false)

/-! ## Run Orchestrator (scraper/index.js runAll) -/

/-- The status recorded for one adapter in `metadata.sources`. -/
inductive SourceStatus
  | success
  | noData
  | error
deriving Repr, DecidableEq

/-- One entry of `metadata.sources`. -/
structure SourceEntry where
  name : String
  status : SourceStatus
  itemsFound : Nat
  error : Option String := none
deriving Repr, DecidableEq

/-- One element of the aggregated `content` array.  `runAll` normally
spreads an adapter's items into `content`, but its `else if (data)` branch
pushes the adapter's (necessarily empty) result array itself as a single
element; `emptyArray` models that pushed value. -/
inductive ContentEntry
  | item (it : ScrapedItem)
  | emptyArray
deriving Repr, DecidableEq

/-- The written artifact of one orchestrator execution (the fields of the
`results` object relevant to the claims). -/
structure RunResult where
  sources : List SourceEntry
  content : List ContentEntry
  totalItems : Nat
deriving Repr, DecidableEq

/-- The loop body of `runAll` for one adapter: the `metadata.sources` entry
it records and the elements it appends to `content`, as a function of what
`instance.run()` did (`Except.error` = the awaited promise rejected;
`Except.ok none` = it returned `null`; `Except.ok (some l)` = it returned
the array `l`). -/
def adapterRecord (name : String)
    (outcome : Except String (Option (List ScrapedItem))) :
    SourceEntry × List ContentEntry :=
  match outcome with
  | .error e =>
      ({ name := name, status := .error, itemsFound := 0, error := some e }, [])
  | .ok none =>
      ({ name := name, status := .noData, itemsFound := 0 }, [])
  | .ok (some data) =>
      if data.length > 0 then
        ({ name := name, status := .success, itemsFound := data.length },
         data.map ContentEntry.item)
      else
        ({ name := name, status := .success, itemsFound := 1 },
         [ContentEntry.emptyArray])

/-- Embedding of `runAll`: runs the configured adapters strictly in order, records one
`metadata.sources` entry each, aggregates their content in execution
order, and sets `metadata.totalItems` to `content.length` before the
artifact is written. -/
def runAll (adapters : List (String × Except String (Option (List ScrapedItem)))) :
    RunResult :=
  let recs := adapters.map (fun p => adapterRecord p.1 p.2)
  let content := (recs.map Prod.snd).flatten
  { sources := recs.map Prod.fst
    content := content
    totalItems := content.length }

/-! ## Content Loader (content-loader.ts) -/

/-- One entry of the artifact's `metadata.sources` as read back by the
Content Loader. -/
structure LoaderSourceEntry where
  name : String
  status : String
  itemsFound : Nat
deriving Repr, DecidableEq

/-- The artifact's `metadata` as read back by the Content Loader. -/
structure LoaderMetadata where
  scrapedAt : String
  version : String
  sources : List LoaderSourceEntry
  duration : String
  totalItems : Nat
deriving Repr, DecidableEq

/-- The `ScrapedContentFile` shape the Content Loader parses. -/
structure ScrapedContentFile where
  metadata : LoaderMetadata
  content : List ScrapedItem
deriving Repr, DecidableEq

/-- Embedding of `getValidContent`: keeps the items that are not flagged as blocked,
have a body longer than 100 characters, do not carry the `[BLOCKED]`
marker in the body, and whose title does not mention an access denial. -/
def getValidContent (data : ScrapedContentFile) : List ScrapedItem :=
  data.content.filter (fun item =>
    !(jsBool item.blocked) &&
    item.body != "" &&
    decide (item.body.length > 100) &&
    !(jsIncludes item.body "[BLOCKED]") &&
    !(jsIncludes (jsToLower item.title) "access denied"))


/-! ## Concrete fixtures used by witnesses and counterexamples -/

def cValidItem : ScrapedItem :=
  { source := "BreakingNewsEnglish", level := "Level 3", title := "Test article"
    body := String.mk (List.replicate 150 'a'), exercises := [], scrapedAt := "t" }

def cFile : ScrapedContentFile :=
  { metadata := { scrapedAt := "t", version := "1.0.0", sources := [],
                  duration := "1s", totalItems := 1 }
    content := [cValidItem] }

def cAdapters : List (String × Except String (Option (List ScrapedItem))) :=
  [("BreakingNewsEnglish", Except.ok (some [cValidItem])),
   ("BritishCouncil", Except.error "net::ERR_FAILED")]

/-- The ScrapedItem invariants claimed in the specification, with the
per-adapter exercise cap as a parameter. -/
def itemWellFormed (cap : Nat) (it : ScrapedItem) : Prop :=
  it.source ≠ "" ∧ it.level ≠ "" ∧ it.body.length ≤ 5000 ∧
  it.exercises.length ≤ cap

def cBCDoc : BCDoc :=
  { h1First := "My article", pageTitle := "", titleTag := ""
    contentSel := [[String.mk (List.replicate 40 'b')]]
    mainParas := none, questionSel := [], taskEls := [] }

def cBCEnv : BCEnv :=
  { levelDocs := [], articleDoc := fun _ => Except.ok cBCDoc }

def cBNDoc : BNDoc :=
  { h1First := "", titleTag := "", pTexts := [String.mk (List.replicate 100 'p')]
    divTexts := [], boldTexts := [], tableRows := [] }

def cBNEnv : BNEnv :=
  { homeDoc := Except.ok [], articleDoc := fun _ => Except.ok cBNDoc }

def wItem : ScrapedItem :=
  { bcScrapeArticle "t"
      ⟨bcBaseUrl ++ "/skills/reading/a2-reading/a-message-to-a-new-colleague",
       "A message to a new colleague", "A2"⟩ cBCDoc with
    url := some (bcBaseUrl ++ "/skills/reading/a2-reading/a-message-to-a-new-colleague") }

def cBlockedInfo : BCArticleInfo :=
  ⟨bcBaseUrl ++ "/skills/reading/b1-reading/an-email-from-a-friend",
   "An email from a friend", "B1"⟩

def cBlockedDoc : BCDoc :=
  { h1First := "Access Denied", pageTitle := "", titleTag := ""
    contentSel := [[String.mk (List.replicate 40 'b')]]
    mainParas := none
    questionSel := [[⟨"What is the main idea of the text today?", ["first option", "second option"]⟩]]
    taskEls := [] }

def cBNBlockedInfo : BNArticleInfo :=
  ⟨bnBaseUrl ++ "/access-2.html", "Access Denied", "", "", []⟩

def cBNBlockedDoc : BNDoc :=
  { h1First := "", titleTag := ""
    pTexts := [String.mk (List.replicate 100 'p')]
    divTexts := [], boldTexts := [], tableRows := [] }

def cDupExcerpt : BNExcerpt :=
  { href := "news/250101-topic.html", titleText := "Topic of the day"
    levelEls := [], contentText := "", smallfontText := "" }

def s40sub : String := "Subscribe to our newsletter immediately!"

def s40clean : String := "The cat sat on the mat in the warm sun.."

def s81sub : String := "Subscribe" ++ String.mk (List.replicate 72 'a')

def s81clean : String := String.mk (List.replicate 81 'a')

/-! ## Helper lemmas and claim theorems -/

theorem strOr_ne_empty (a b : String) (hb : b ≠ "") : strOr a b ≠ "" := by
  unfold strOr
  by_cases ha : a = "" <;> simp [ha, hb]

theorem jsSubstring_length_le (s : String) (n : Nat) :
    (jsSubstring s n).length ≤ n := by
  show (String.mk (s.toList.take n)).length ≤ n
  rw [String.length]
  exact List.length_take_le n s.toList

theorem findCefr_chars (cs : List Char) : ∀ a b, findCefr cs = some (a, b) →
    ((a == 'a' || a == 'b' || a == 'c' || a == 'A' || a == 'B' || a == 'C') &&
      (b == '1' || b == '2')) = true := by
  induction cs with
  | nil =>
      intro a b h
      rw [show findCefr [] = none from rfl] at h
      cases h
  | cons c tail ih =>
      intro a b h
      cases tail with
      | nil =>
          rw [show findCefr [c] = none from rfl] at h
          cases h
      | cons d rest =>
          rw [findCefr] at h
          by_cases hc : ((c == 'a' || c == 'b' || c == 'c' || c == 'A' || c == 'B' || c == 'C') &&
              (d == '1' || d == '2')) = true
          · rw [if_pos hc] at h
            have h2 : c = a ∧ d = b := by
              have := Option.some.inj h
              exact ⟨congrArg Prod.fst this, congrArg Prod.snd this⟩
            obtain ⟨rfl, rfl⟩ := h2
            exact hc
          · rw [if_neg hc] at h
            exact ih a b h

def cefrOutputs : List String := ["Unknown", "A1", "A2", "B1", "B2", "C1", "C2"]

theorem cefrPair_mem (a b : Char)
    (hab : ((a == 'a' || a == 'b' || a == 'c' || a == 'A' || a == 'B' || a == 'C') &&
      (b == '1' || b == '2')) = true) :
    String.mk [a.toUpper, b.toUpper] ∈ cefrOutputs := by
  simp only [Bool.and_eq_true, Bool.or_eq_true, beq_iff_eq] at hab
  obtain ⟨ha, hb⟩ := hab
  rcases ha with ((((rfl | rfl) | rfl) | rfl) | rfl) | rfl <;>
    rcases hb with rfl | rfl <;> decide

theorem normalizeLevel_cases (x : String) :
    normalizeLevel x = x ∨ normalizeLevel x ∈ cefrOutputs := by
  unfold normalizeLevel
  split
  · right; decide
  next hx =>
    dsimp only
    split
    next a b heq =>
      right
      exact cefrPair_mem a b (findCefr_chars _ a b heq)
    next =>
      split
      next p heq2 =>
        right
        have hp := List.mem_of_find?_eq_some heq2
        fin_cases hp <;> decide
      next =>
        left
        simp [strOr, hx]

set_option maxRecDepth 4000 in
theorem normalizeLevel_fixes : ∀ y ∈ cefrOutputs, normalizeLevel y = y := by decide

theorem isCefrExact_toUpper_mem (x : String) (h : isCefrExact x = true) :
    jsToUpper x ∈ cefrOutputs := by
  unfold isCefrExact at h
  unfold jsToUpper
  cases hl : x.toList with
  | nil => rw [hl] at h; simp at h
  | cons a tail =>
      cases tail with
      | nil => rw [hl] at h; simp at h
      | cons b rest =>
          cases rest with
          | cons c rest' => rw [hl] at h; simp at h
          | nil =>
              rw [hl] at h
              simp only [Bool.and_eq_true, Bool.or_eq_true, beq_iff_eq] at h
              obtain ⟨ha, hb⟩ := h
              rcases ha with ((((rfl | rfl) | rfl) | rfl) | rfl) | rfl <;>
                rcases hb with rfl | rfl <;> decide

theorem mapBNE_cases (x : String) :
    mapBNELevelToCEFR x = x ∨ mapBNELevelToCEFR x ∈ cefrOutputs := by
  unfold mapBNELevelToCEFR
  cases hd : x.toList.filter Char.isDigit with
  | nil => left; rfl
  | cons d ds =>
      right
      dsimp only
      split
      · decide
      · split
        · decide
        · split
          · decide
          · split
            · decide
            · split
              · decide
              · decide

theorem mapBNE_no_digits (x : String) (h : x.toList.filter Char.isDigit = []) :
    mapBNELevelToCEFR x = x := by
  unfold mapBNELevelToCEFR
  rw [h]

theorem normalizeToCEFR_cases (x : String) :
    normalizeToCEFR x = x ∨ normalizeToCEFR x ∈ cefrOutputs := by
  unfold normalizeToCEFR
  by_cases hx : x = ""
  · right; rw [if_pos hx]; decide
  · rw [if_neg hx]
    by_cases hcefr : isCefrExact x = true
    · right; rw [if_pos hcefr]; exact isCefrExact_toUpper_mem x hcefr
    · rw [if_neg hcefr]
      by_cases hlvl : jsIncludes (jsToLower x) "level" = true
      · rw [if_pos hlvl]; exact mapBNE_cases x
      · rw [if_neg hlvl]; left; rfl

set_option maxRecDepth 4000 in
theorem normalizeToCEFR_fixes : ∀ y ∈ cefrOutputs, normalizeToCEFR y = y := by decide

/-- C8: both level normalizations are idempotent, and a string that is
already one of the CEFR codes A1–C2 normalizes to itself under both. -/
theorem claim_C8_level_normalization_idempotent :
    (∀ x, normalizeLevel (normalizeLevel x) = normalizeLevel x) ∧
    (∀ x, normalizeToCEFR (normalizeToCEFR x) = normalizeToCEFR x) ∧
    (∀ c ∈ (["A1", "A2", "B1", "B2", "C1", "C2"] : List String),
      normalizeLevel c = c ∧ normalizeToCEFR c = c) := by
  refine ⟨fun x => ?_, fun x => ?_, by decide⟩
  · rcases normalizeLevel_cases x with h | h
    · rw [h]; exact h
    · exact normalizeLevel_fixes _ h
  · rcases normalizeToCEFR_cases x with h | h
    · rw [h]; exact h
    · exact normalizeToCEFR_fixes _ h

/-- Witness for C8 at the concrete CEFR code `"A1"`. -/
theorem claim_C8_witness :
    "A1" ∈ (["A1", "A2", "B1", "B2", "C1", "C2"] : List String) ∧
    (normalizeLevel "A1" = "A1" ∧ normalizeToCEFR "A1" = "A1") :=
  ⟨by decide, claim_C8_level_normalization_idempotent.2.2 "A1" (by decide)⟩

/-- C9: every item returned by the Content Loader's `getValidContent` is
not flagged as blocked and has a body strictly longer than 100
characters, for every input content file. -/
theorem claim_C9_valid_content_filter (data : ScrapedContentFile) :
    ∀ item ∈ getValidContent data,
      item.blocked ≠ some true ∧ item.body.length > 100 := by
  intro item hmem
  unfold getValidContent at hmem
  rw [List.mem_filter] at hmem
  obtain ⟨-, hcond⟩ := hmem
  simp only [Bool.and_eq_true] at hcond
  obtain ⟨⟨⟨⟨h1, h2⟩, h3⟩, h4⟩, h5⟩ := hcond
  constructor
  · intro hb
    rw [hb] at h1
    simp [jsBool] at h1
  · simpa using h3

set_option maxRecDepth 10000 in
/-- Witness for C9 at a concrete content file. -/
theorem claim_C9_witness :
    cValidItem ∈ getValidContent cFile ∧
    (cValidItem.blocked ≠ some true ∧ cValidItem.body.length > 100) :=
  ⟨by decide, claim_C9_valid_content_filter cFile cValidItem (by decide)⟩

/-- C7: in every artifact built by `runAll`, `metadata.totalItems` equals
`content.length`, whatever each adapter's outcome was. -/
theorem claim_C7_totalItems_matches_content
    (adapters : List (String × Except String (Option (List ScrapedItem)))) :
    (runAll adapters).totalItems = (runAll adapters).content.length := rfl

/-- C1: if the `i`-th configured adapter's `run()` rejects with `msg`, the
orchestrator records an `error` entry with that message and `itemsFound`
0 for it, still records for every adapter (before and after) exactly the
entry determined by that adapter's own outcome, and the final
`metadata.sources` has exactly one entry per configured adapter. -/
theorem claim_C1_failure_isolation
    (adapters : List (String × Except String (Option (List ScrapedItem))))
    (i : Nat) (nm msg : String)
    (herr : adapters[i]? = some (nm, Except.error msg)) :
    (runAll adapters).sources.length = adapters.length ∧
    (∀ j : Nat, (runAll adapters).sources[j]? =
      (adapters[j]?).map (fun p => (adapterRecord p.1 p.2).1)) ∧
    (runAll adapters).sources[i]? =
      some { name := nm, status := SourceStatus.error, itemsFound := 0,
             error := some msg } := by
  have hsrc : (runAll adapters).sources =
      adapters.map (fun p => (adapterRecord p.1 p.2).1) := by
    simp [runAll]
  refine ⟨by rw [hsrc, List.length_map], fun j => by rw [hsrc, List.getElem?_map], ?_⟩
  rw [hsrc, List.getElem?_map, herr]
  rfl

/-- Witness for C1: a two-adapter run whose second adapter rejects. -/
theorem claim_C1_witness :
    cAdapters[1]? = some ("BritishCouncil", Except.error "net::ERR_FAILED") ∧
    (runAll cAdapters).sources[1]? =
      some { name := "BritishCouncil", status := SourceStatus.error,
             itemsFound := 0, error := some "net::ERR_FAILED" } :=
  ⟨rfl,
   (claim_C1_failure_isolation cAdapters 1 "BritishCouncil" "net::ERR_FAILED" rfl).2.2⟩

/-- C10: `BaseScraper.run` never lets its caller observe an exception:
for every initialization and scrape outcome it returns normally with the
browser closed, and returns `null` whenever either step threw. -/
theorem claim_C10_run_never_throws (initOutcome : Option String)
    (scrapeOutcome : Except String (List ScrapedItem)) :
    (∃ v, (runScraper initOutcome scrapeOutcome).1 = Except.ok v) ∧
    (runScraper initOutcome scrapeOutcome).2 = false ∧
    ((initOutcome ≠ none ∨ (∃ e, scrapeOutcome = Except.error e)) →
      (runScraper initOutcome scrapeOutcome).1 = Except.ok none) := by
  rcases initOutcome with _ | msg
  · rcases scrapeOutcome with e | res
    · exact ⟨⟨none, rfl⟩, rfl, fun _ => rfl⟩
    · refine ⟨⟨some res, rfl⟩, rfl, ?_⟩
      rintro (h | ⟨e, he⟩)
      · exact absurd rfl h
      · exact Except.noConfusion he
  · exact ⟨⟨none, rfl⟩, rfl, fun _ => rfl⟩

/-- Witness for C10: a run whose browser initialization throws. -/
theorem claim_C10_witness :
    ((some "launch failed" : Option String) ≠ none ∨
      (∃ e, (Except.ok ([] : List ScrapedItem) : Except String (List ScrapedItem)) =
        Except.error e)) ∧
    (runScraper (some "launch failed") (Except.ok [])).1 = Except.ok none :=
  ⟨Or.inl (by simp),
   (claim_C10_run_never_throws (some "launch failed") (Except.ok [])).2.2
     (Or.inl (by simp))⟩

theorem strOr_empty (s : String) : strOr s "" = s := by
  unfold strOr
  by_cases h : s = "" <;> simp [h]

theorem bcScrapeArticle_wf (now : String) (info : BCArticleInfo) (doc : BCDoc) :
    itemWellFormed 10 (bcScrapeArticle now info doc) := by
  unfold bcScrapeArticle
  dsimp only
  split
  · refine ⟨by simp [formatResult], ?_, ?_, by simp [formatResult]⟩
    · exact strOr_ne_empty _ _ (by decide)
    · show (strOr blockedMsg "").length ≤ 5000
      rw [strOr_empty]
      decide
  · refine ⟨by simp [formatResult], ?_, ?_, ?_⟩
    · exact strOr_ne_empty _ _ (by decide)
    · show (strOr (jsSubstring (bcBody doc) 5000) "").length ≤ 5000
      rw [strOr_empty]
      exact jsSubstring_length_le _ _
    · show ((bcExercises doc).take 10).length ≤ 10
      exact List.length_take_le _ _

theorem bnScrapeArticle_wf (now : String) (info : BNArticleInfo) (doc : BNDoc) :
    itemWellFormed 20 (bnScrapeArticle now info doc) := by
  unfold bnScrapeArticle
  refine ⟨by simp [formatResult], ?_, ?_, ?_⟩
  · exact strOr_ne_empty _ _ (by decide)
  · show (strOr (jsSubstring (bnBody doc) 5000) "").length ≤ 5000
    rw [strOr_empty]
    exact jsSubstring_length_le _ _
  · show (List.map _ ((bnTableVocab doc.tableRows (bnBoldVocab doc.boldTexts)).take 20)).length ≤ 20
    rw [List.length_map]
    exact List.length_take_le _ _

theorem getReadingArticles_length_le (limit : Nat)
    (levelDocs : List (String × Option BCListDoc)) :
    (getReadingArticles limit levelDocs).length ≤ limit :=
  List.length_take_le _ _

theorem bnCollect_length_le (limit : Nat) (l : List BNExcerpt) :
    ∀ acc : List BNArticleInfo, acc.length ≤ limit →
      (bnCollect limit l acc).length ≤ limit := by
  induction l with
  | nil => intro acc h; exact h
  | cons e rest ih =>
      intro acc h
      rw [bnCollect]
      split
      · exact h
      next hlt =>
        dsimp only
        split
        · apply ih
          simp only [List.length_append, List.length_cons, List.length_nil]
          omega
        · exact ih acc h

theorem getLatestArticles_length_le (limit : Nat) (ex : List BNExcerpt) :
    (getLatestArticles limit ex).length ≤ limit :=
  bnCollect_length_le limit ex [] (Nat.zero_le _)

/-- C2: each adapter's scraping run yields at most 3 items (the configured
discovery limit), and every produced item has a non-empty source, a
non-empty level, a body of at most 5000 characters and at most 10
(British Council) respectively 20 (Breaking News) exercises — for every
environment of fetched documents. -/
theorem claim_C2_run_limit_and_item_invariants (now : String)
    (bcEnv : BCEnv) (bnEnv : BNEnv) :
    ((bcScrape now bcEnv).length ≤ 3 ∧
      ∀ it ∈ bcScrape now bcEnv, itemWellFormed 10 it) ∧
    (∀ res, bnScrape now bnEnv = Except.ok res →
      res.length ≤ 3 ∧ ∀ it ∈ res, itemWellFormed 20 it) := by
  refine ⟨⟨?_, ?_⟩, ?_⟩
  · unfold bcScrape
    exact le_trans (List.length_filterMap_le _ _) (getReadingArticles_length_le 3 _)
  · intro it hmem
    unfold bcScrape at hmem
    rw [List.mem_filterMap] at hmem
    obtain ⟨a, ha, hit⟩ := hmem
    cases hdoc : bcEnv.articleDoc a.url with
    | error e => rw [hdoc] at hit; exact Option.noConfusion hit
    | ok doc =>
        rw [hdoc] at hit
        injection hit with h
        subst h
        exact bcScrapeArticle_wf now a doc
  · intro res hres
    unfold bnScrape at hres
    cases hhome : bnEnv.homeDoc with
    | error e => rw [hhome] at hres; exact Except.noConfusion hres
    | ok excerpts =>
        rw [hhome] at hres
        injection hres with h
        subst h
        constructor
        · exact le_trans (List.length_filterMap_le _ _)
            (getLatestArticles_length_le 3 _)
        · intro it hmem
          rw [List.mem_filterMap] at hmem
          obtain ⟨a, ha, hit⟩ := hmem
          cases hdoc : bnEnv.articleDoc (bnArticleUrl a) with
          | error e => rw [hdoc] at hit; exact Option.noConfusion hit
          | ok doc =>
              rw [hdoc] at hit
              injection hit with h
              subst h
              exact bnScrapeArticle_wf now a doc

set_option maxRecDepth 20000 in
/-- Witness for C2: a concrete environment in which the British Council
adapter produces items (via its fallback references) and the Breaking
News adapter produces an empty list. -/
theorem claim_C2_witness :
    wItem ∈ bcScrape "t" cBCEnv ∧ itemWellFormed 10 wItem ∧
    bnScrape "t" cBNEnv = Except.ok [] ∧
    ([] : List ScrapedItem).length ≤ 3 :=
  ⟨by decide,
   (claim_C2_run_limit_and_item_invariants "t" cBCEnv cBNEnv).1.2 wItem (by decide),
   rfl,
   ((claim_C2_run_limit_and_item_invariants "t" cBCEnv cBNEnv).2 [] rfl).1⟩

set_option maxRecDepth 20000 in
/-- C3, evaluated at the failing input: on a British Council page whose
title is `"Access Denied"`, the blocked branch fires (the body is the
explanatory `[BLOCKED]` message and no body or exercises are extracted,
although the document offers both), yet the returned item carries no
`blocked` flag because `formatResult` drops it; and on a Breaking News
page whose reference title is `"Access Denied"`, no blocked detection
happens at all — body extraction proceeds normally. -/
theorem claim_C3_blocked_flag_dropped :
    ((bcScrapeArticle "t" cBlockedInfo cBlockedDoc).blocked = none ∧
     (bcScrapeArticle "t" cBlockedInfo cBlockedDoc).body = blockedMsg ∧
     (bcScrapeArticle "t" cBlockedInfo cBlockedDoc).exercises = []) ∧
    ((bnScrapeArticle "t" cBNBlockedInfo cBNBlockedDoc).blocked = none ∧
     jsIncludes (jsToLower (bnScrapeArticle "t" cBNBlockedInfo cBNBlockedDoc).title)
       "access denied" = true ∧
     (bnScrapeArticle "t" cBNBlockedInfo cBNBlockedDoc).body =
       String.mk (List.replicate 100 'p')) := by decide

/-- C5, counterexample: Breaking News discovery has no fallback — with an
empty homepage it returns the empty reference list even though the limit
is at least 1. -/
theorem claim_C5_counterexample :
    1 ≤ 3 ∧ getLatestArticles 3 ([] : List BNExcerpt) = [] := ⟨by decide, rfl⟩

/-- C5, amended: only the British Council adapter has the hard-coded
fallback — when its discovery loop produces nothing, the fallback
references are returned, and its reference list is non-empty for every
limit ≥ 1 and every environment. -/
theorem claim_C5_amended_bc_fallback (limit : Nat)
    (levelDocs : List (String × Option BCListDoc)) (h : 1 ≤ limit) :
    (bcProcessLevels limit levelDocs [] = [] →
      getReadingArticles limit levelDocs = bcFallbackArticles.take limit) ∧
    1 ≤ (getReadingArticles limit levelDocs).length := by
  constructor
  · intro hempty
    unfold getReadingArticles
    rw [hempty]
    simp
  · unfold getReadingArticles
    dsimp only
    split
    next hzero =>
      rw [List.length_take]
      have h3 : bcFallbackArticles.length = 3 := rfl
      rw [h3]
      omega
    next hzero =>
      rw [List.length_take]
      omega

/-- Witness for C5 at limit 3 with no fetched level pages. -/
theorem claim_C5_witness :
    1 ≤ 3 ∧
    bcProcessLevels 3 ([] : List (String × Option BCListDoc)) [] = [] ∧
    getReadingArticles 3 [] = bcFallbackArticles.take 3 ∧
    1 ≤ (getReadingArticles 3 ([] : List (String × Option BCListDoc))).length :=
  ⟨by decide, rfl,
   (claim_C5_amended_bc_fallback 3 [] (by decide)).1 rfl,
   (claim_C5_amended_bc_fallback 3 [] (by decide)).2⟩

set_option maxRecDepth 20000 in
/-- C6, counterexample: in the Breaking News aggregation a length-40
candidate is excluded even when it contains no boilerplate term (the
threshold is 80, not 40), and in the British Council aggregation a
length-40 candidate containing "Subscribe" is included ("Subscribe" is
not among its boilerplate terms). -/
theorem claim_C6_counterexample :
    s40clean.length = 40 ∧ bnParaFilter s40clean = false ∧
    bnParagraphs [s40sub, s40clean] = [] ∧
    s40sub.length = 40 ∧ jsIncludes s40sub "Subscribe" = true ∧
    bcParaFilter s40sub = true ∧
    bcBodyFromSelectors [[s40sub]] = s40sub := by decide

set_option maxRecDepth 40000 in
/-- C6, amended: in the Breaking News aggregation every candidate of
length at most 80 is excluded whatever its content; at length 81 a
candidate containing "Subscribe" is excluded while a boilerplate-free
candidate is included; in the British Council aggregation the threshold
is 30 and "Subscribe" is not filtered. -/
theorem claim_C6_amended_thresholds :
    (∀ s : String, s.length ≤ 80 → bnParaFilter s = false) ∧
    s81sub.length = 81 ∧ jsIncludes s81sub "Subscribe" = true ∧
    s81clean.length = 81 ∧
    bnParagraphs [s81sub, s81clean] = [s81clean] ∧
    bcParaFilter s40sub = true := by
  refine ⟨?_, by decide, by decide, by decide, by decide, by decide⟩
  intro s hs
  unfold bnParaFilter
  have hlen : ¬ (s.length > 80) := by omega
  simp [hlen]

/-- Witness for C6 at the concrete length-40 boilerplate-free candidate. -/
theorem claim_C6_witness :
    s40clean.length ≤ 80 ∧ bnParaFilter s40clean = false :=
  ⟨by decide, claim_C6_amended_thresholds.1 s40clean (by decide)⟩

theorem bcProcessLinks_nodup (limit : Nat) (level : String) (links : List LinkEl) :
    ∀ articles : List BCArticleInfo,
      (articles.map (fun a => a.url)).Nodup →
      ((bcProcessLinks limit level links articles).map (fun a => a.url)).Nodup := by
  induction links with
  | nil => intro arts h; exact h
  | cons l rest ih =>
      intro arts h
      rw [bcProcessLinks]
      split
      · exact h
      · dsimp only
        apply ih
        split
        next hcond =>
          split
          next hf =>
            have hf' := hf
            simp only [Bool.and_eq_true] at hf'
            have hnone : ∀ a ∈ arts, ¬ (a.url == bcResolveUrl l.href) = true := by
              rw [← List.find?_eq_none]
              exact Option.isNone_iff_eq_none.mp hf'.1
            rw [List.map_append, List.map_singleton]
            refine List.Nodup.append h (List.nodup_singleton _) ?_
            intro u hu hmem
            rw [List.mem_map] at hu
            obtain ⟨a, ha, rfl⟩ := hu
            rw [List.mem_singleton] at hmem
            exact hnone a ha (beq_iff_eq.mpr hmem)
          next => exact h
        next => exact h

theorem bcProcessSelectors_nodup (limit : Nat) (level : String)
    (sels : List (List LinkEl)) :
    ∀ articles : List BCArticleInfo,
      (articles.map (fun a => a.url)).Nodup →
      ((bcProcessSelectors limit level sels articles).map (fun a => a.url)).Nodup := by
  induction sels with
  | nil => intro arts h; exact h
  | cons links rest ih =>
      intro arts h
      rw [bcProcessSelectors]
      split
      · exact bcProcessLinks_nodup limit level links arts h
      · exact ih _ (bcProcessLinks_nodup limit level links arts h)

theorem bcProcessLevels_nodup (limit : Nat)
    (levelDocs : List (String × Option BCListDoc)) :
    ∀ articles : List BCArticleInfo,
      (articles.map (fun a => a.url)).Nodup →
      ((bcProcessLevels limit levelDocs articles).map (fun a => a.url)).Nodup := by
  induction levelDocs with
  | nil => intro arts h; exact h
  | cons p rest ih =>
      intro arts h
      rw [bcProcessLevels]
      split
      · exact h
      · dsimp only
        cases hp : p.2 with
        | none => exact ih arts h
        | some d => exact ih _ (bcProcessSelectors_nodup limit p.1 d.selectorLinks arts h)

/-- C4, amended for the British Council adapter: one discovery call never
returns two references with the same resolved absolute URL, for every
limit and every environment of fetched listing pages. -/
theorem claim_C4_amended_bc_dedup (limit : Nat)
    (levelDocs : List (String × Option BCListDoc)) :
    ((getReadingArticles limit levelDocs).map (fun a => a.url)).Nodup := by
  unfold getReadingArticles
  dsimp only
  rw [List.map_take]
  apply List.Nodup.sublist (List.take_sublist _ _)
  split
  · decide
  · exact bcProcessLevels_nodup limit levelDocs [] (by simp)

/-- C4, counterexample: Breaking News discovery does not deduplicate — a
homepage with two excerpts naming the same lesson yields two references
with the same resolved absolute URL. -/
theorem claim_C4_counterexample :
    ((getLatestArticles 5 [cDupExcerpt, cDupExcerpt]).map (fun a => a.url)) =
      [bnBaseUrl ++ "/news/250101-topic.html",
       bnBaseUrl ++ "/news/250101-topic.html"] ∧
    ¬ ((getLatestArticles 5 [cDupExcerpt, cDupExcerpt]).map
        (fun a => a.url)).Nodup := by
  constructor
  · decide
  · decide
